/-
Verification of the pcarpet numerical pipeline (src/pcarpet/pcarpet.py)
against its natural-language specification.

Modelling conventions:
* Floating-point scalars are modelled as real numbers (`ℝ`); `np.sqrt` is
  `Real.sqrt`.  Division by zero follows Lean's `x / 0 = 0` convention; where
  NumPy would produce NaN the embedding notes it in the relevant doc comment.
* A 1-d NumPy array of length `T` is a total function `ℕ → ℝ` together with
  the explicit length `T`; sums, means and standard deviations only read
  indices `t < T`.  A 2-d array is `ℕ → ℕ → ℝ` with explicit row/column
  counts.  A row-list (carpet) is a `List (ℕ → ℝ)`.
* Predicates on reals are decided classically (`Classical.propDecidable`)
  where a NumPy boolean array or comparison appears; the resulting
  definitions are noncomputable but are evaluated in proofs with
  `if_pos`/`if_neg` style rewriting.
-/
import Mathlib

namespace Pcarpet

/-- Source line 12: `EPSILON = 1e-9`, added to denominators to avoid
zero division. -/
def EPSILON : ℝ := 1e-9

/-- Mean of the first `T` entries of a row: `A.mean(1)` for one row
(`np.mean` over the time axis). -/
noncomputable def rowMean (T : ℕ) (a : ℕ → ℝ) : ℝ :=
  (∑ t ∈ Finset.range T, a t) / T

/-- Source line 31/32: `A_mA = A - A.mean(1)[:, None]` — subtract each
row's own mean from a 2-d array with `T` columns. -/
noncomputable def centerRows (T : ℕ) (A : ℕ → ℕ → ℝ) : ℕ → ℕ → ℝ :=
  fun i t => A i t - rowMean T (A i)

/-- Source line 35/36: `ssA = (A_mA ** 2).sum(1)` — per-row sum of squared
deviations. -/
noncomputable def rowSS (T : ℕ) (A : ℕ → ℕ → ℝ) : ℕ → ℝ :=
  fun i => ∑ t ∈ Finset.range T, (centerRows T A i t) ^ 2

/-- Source lines 15-41, `pearsonr_2d(A, B)`: entry `(i, j)` is
`np.dot(A_mA, B_mB.T)[i,j] / (np.sqrt(np.dot(ssA[:,None], ssB[None]))[i,j] + EPSILON)`;
the matrix product gives `∑ t, A_mA i t * B_mB j t` and the outer product
gives `ssA i * ssB j`. -/
noncomputable def pearsonr_2d (T : ℕ) (A B : ℕ → ℕ → ℝ) : ℕ → ℕ → ℝ :=
  fun i j =>
    (∑ t ∈ Finset.range T, centerRows T A i t * centerRows T B j t) /
      (Real.sqrt (rowSS T A i * rowSS T B j) + EPSILON)

/-! Spec-side vocabulary for claim C1 (section 4.1 of the spec), written
from the spec's words: mean-centred vectors, dot products and sums of
squared deviations of single rows. -/

/-- Spec: "subtract each row's own mean" — the mean-centred version of a
single row of length `T`. -/
noncomputable def centerVec (T : ℕ) (a : ℕ → ℝ) : ℕ → ℝ :=
  fun t => a t - rowMean T a

/-- Spec: dot product of two length-`T` vectors. -/
noncomputable def dotT (T : ℕ) (a b : ℕ → ℝ) : ℝ :=
  ∑ t ∈ Finset.range T, a t * b t

/-- Spec: sum of squares of a length-`T` vector. -/
noncomputable def sumsqT (T : ℕ) (a : ℕ → ℝ) : ℝ :=
  ∑ t ∈ Finset.range T, (a t) ^ 2

/-- Spec formula for one entry of the batch Pearson correlation: the dot
product of the two mean-centred rows divided by (the square root of the
product of the two rows' sums of squared deviations, plus `EPSILON`). -/
noncomputable def specPearsonEntry (T : ℕ) (a b : ℕ → ℝ) : ℝ :=
  dotT T (centerVec T a) (centerVec T b) /
    (Real.sqrt (sumsqT T (centerVec T a) * sumsqT T (centerVec T b)) + EPSILON)

/-- Filtering a list by a proposition-valued predicate, decided
classically; models NumPy boolean-mask selection. -/
noncomputable def filterP {α : Type} (p : α → Prop) (l : List α) : List α :=
  l.filter (fun a => @decide (p a) (Classical.propDecidable _))

/-- The error taxonomy of the spec (section 7): shape preconditions,
bad configuration values, empty filtering results, plus the incidental
Python-level errors the source actually raises: the `ValueError` from
component-table construction, the `IndexError` from indexing the result
of `data_tsnr.squeeze()` when singleton spatial dims were squeezed away,
and the `AxisError` from `np.any(..., axis=1)` on a `nomask` (0-d)
mask. -/
inductive PcarpetError
  | shapeMismatch
  | invalidArgument
  | emptyResult
  | tableShapeError
  | indexError
  | axisError
  deriving DecidableEq, Repr

/-- An n-dimensional NumPy array abstracted to its shape plus flat
contents; only the shape is inspected by `import_data`. -/
structure NDArr where
  shape : List ℕ
  val : List ℝ

/-- Source lines 116-135, `Dataset.import_data` validation: after loading,
raise `ValueError` (ShapeMismatch) unless the fMRI array is 4-d, the mask
is 3-d and the fMRI spatial dims equal the mask dims; otherwise the two
arrays are returned (stored) unchanged. -/
def import_data (data mask : NDArr) : Except PcarpetError (NDArr × NDArr) :=
  if data.shape.length ≠ 4 then .error .shapeMismatch
  else if mask.shape.length ≠ 3 then .error .shapeMismatch
  else if data.shape.take 3 ≠ mask.shape then .error .shapeMismatch
  else .ok (data, mask)

/-- The inputs of `Dataset.get_carpet`: a 4-d fMRI volume of shape
`(X, Y, Z, T)` and a 3-d mask of shape `(X, Y, Z)`, as total functions. -/
structure FmriInput where
  X : ℕ
  Y : ℕ
  Z : ℕ
  T : ℕ
  data : ℕ → ℕ → ℕ → ℕ → ℝ
  mask : ℕ → ℕ → ℕ → ℝ

/-- Population variance over the first `T` entries (`np.std`/`scipy.stats.zscore`
use `ddof = 0`). -/
noncomputable def popVar (T : ℕ) (a : ℕ → ℝ) : ℝ :=
  (∑ t ∈ Finset.range T, (a t - rowMean T a) ^ 2) / T

/-- Population standard deviation: `np.std(..., axis=-1)`. -/
noncomputable def popStd (T : ℕ) (a : ℕ → ℝ) : ℝ :=
  Real.sqrt (popVar T a)

/-- Source line 158: `data_mean = self.data.mean(axis=-1)`. -/
noncomputable def dataMean (D : FmriInput) (x y z : ℕ) : ℝ :=
  rowMean D.T (D.data x y z)

/-- Source line 159: `data_std = self.data.std(axis=-1)`. -/
noncomputable def dataStd (D : FmriInput) (x y z : ℕ) : ℝ :=
  popStd D.T (D.data x y z)

/-- Source line 160: `data_tsnr = data_mean / (data_std + EPSILON)` —
the per-voxel quality (tSNR) map. -/
noncomputable def dataTsnr (D : FmriInput) (x y z : ℕ) : ℝ :=
  dataMean D x y z / (dataStd D x y z + EPSILON)

/-- x-coordinate of flattened row-major voxel index `v`. -/
def vx (D : FmriInput) (v : ℕ) : ℕ := v / (D.Y * D.Z)

/-- y-coordinate of flattened row-major voxel index `v`. -/
def vy (D : FmriInput) (v : ℕ) : ℕ := (v / D.Z) % D.Y

/-- z-coordinate of flattened row-major voxel index `v`. -/
def vz (D : FmriInput) (v : ℕ) : ℕ := v % D.Z

/-- Source line 164: `mask = self.mask < 0.5` — voxels excluded by the
mask. -/
def maskExcluded (D : FmriInput) (x y z : ℕ) : Prop :=
  D.mask x y z < 0.5

/-- Source lines 166-170: the tSNR exclusion mask; all-false when
`tSNR_thresh is None`, else `data_tsnr < tSNR_thresh` voxelwise.  This is
the comparison the code performs when line 168/169 executes without
error, i.e. when all spatial dims exceed 1 so that
`data_tsnr.squeeze()` only drops the kept time axis; the `IndexError`
raised when a singleton spatial dim is also squeezed away is modelled
separately by `squeezeCrash` inside `getCarpetRun`. -/
def tsnrExcluded (D : FmriInput) (thresh : Option ℝ) (x y z : ℕ) : Prop :=
  match thresh with
  | none => False
  | some th => dataTsnr D x y z < th

/-- Source line 171: `np.ma.masked_where(mask_4d | tsnr_mask_4d, ...)`
after reshaping to voxels × time (line 174); both 4-d masks repeat the
same 3-d condition along the time axis, so the entry `(v, t)` of the
combined exclusion mask is independent of `t`. -/
def excluded2d (D : FmriInput) (thresh : Option ℝ) (v t : ℕ) : Prop :=
  maskExcluded D (vx D v) (vy D v) (vz D v) ∨
    tsnrExcluded D thresh (vx D v) (vy D v) (vz D v)

/-- Row `v` of the reshaped voxels × time matrix `data_2d`
(row-major flattening of the spatial dims, source line 174). -/
def row2d (D : FmriInput) (v : ℕ) : ℕ → ℝ :=
  D.data (vx D v) (vy D v) (vz D v)

/-- Source line 178: `np.any(~np.ma.getmask(data_2d), axis=1)` for row
`v` — some timepoint of the row is not masked out. -/
def anyValidRow (D : FmriInput) (thresh : Option ℝ) (v : ℕ) : Prop :=
  ∃ t ∈ Finset.range D.T, ¬ excluded2d D thresh v t

/-- Source line 178: `indices_valid = np.where(np.any(~mask, axis=1))[0]` —
the retained flattened voxel indices, in increasing order.  This is the
value line 178 computes when it executes without error, i.e. when at
least one entry of the combined exclusion mask is set; when nothing is
excluded `np.ma.masked_where` shrinks the mask to `nomask` and line 178
raises `AxisError` instead, which is modelled by `someVoxelExcluded`
inside `getCarpetRun`. -/
noncomputable def indicesValid (D : FmriInput) (thresh : Option ℝ) : List ℕ :=
  filterP (anyValidRow D thresh) (List.range (D.X * D.Y * D.Z))

/-- Source line 181: `carpet = data_2d[indices_valid, :].data` — the
retained rows, before normalization. -/
noncomputable def carpetRaw (D : FmriInput) (thresh : Option ℝ) : List (ℕ → ℝ) :=
  (indicesValid D thresh).map (row2d D)

/-- Source line 185: `scipy.stats.zscore(carpet, axis=1)` for one row:
subtract the row mean and divide by the population standard deviation.
(When the standard deviation is zero NumPy produces NaN; in this real
embedding the division by zero yields `0` — either way no exception is
raised.) -/
noncomputable def zscoreRow (T : ℕ) (a : ℕ → ℝ) : ℕ → ℝ :=
  fun t => (a t - rowMean T a) / popStd T a

/-- The normalized carpet produced at source line 185. -/
noncomputable def carpetN (D : FmriInput) (thresh : Option ℝ) : List (ℕ → ℝ) :=
  (carpetRaw D thresh).map (zscoreRow D.T)

/-- Spec-side retention predicate for claim C2: the voxel's mask value is
at least 0.5, and whenever a quality threshold is supplied, the voxel's
quality value `mean / (std + EPSILON)` is at least the threshold. -/
def specRetained (D : FmriInput) (thresh : Option ℝ) (v : ℕ) : Prop :=
  0.5 ≤ D.mask (vx D v) (vy D v) (vz D v) ∧
    ∀ th, thresh = some th → th ≤ dataTsnr D (vx D v) (vy D v) (vz D v)

/-- Concrete one-voxel, one-timepoint input: with a quality threshold,
its singleton spatial dims make the real `get_carpet` raise `IndexError`
at the tsnr-mask construction (used as the C2 counterexample input). -/
def D2 : FmriInput :=
  ⟨1, 1, 1, 1, fun _ _ _ _ => 1, fun _ _ _ => 1⟩

/-- Concrete one-voxel, two-timepoint input (time series `(1, -1)`) used
to instantiate claim C3. -/
def D3 : FmriInput :=
  ⟨1, 1, 1, 2, fun _ _ _ t => if t = 0 then 1 else -1, fun _ _ _ => 1⟩

/-- The single voxel time series of `D3`. -/
def r3 : ℕ → ℝ := fun t => if t = 0 then 1 else -1

/-- Ascending order on (original index, key) pairs used to model
`np.argsort`: ascending by key, with ties kept in original index order.
(`np.argsort` is modelled as a deterministic stable ascending argsort,
which matches NumPy's observable behaviour on equal keys.) -/
def stableRel : ℕ × ℝ → ℕ × ℝ → Prop :=
  fun p q => p.2 < q.2 ∨ (p.2 = q.2 ∧ p.1 ≤ q.1)

noncomputable instance : DecidableRel stableRel :=
  fun _ _ => Classical.propDecidable _

instance : IsTotal (ℕ × ℝ) stableRel where
  total p q := by
    rcases lt_trichotomy p.2 q.2 with h | h | h
    · exact Or.inl (Or.inl h)
    · rcases le_total p.1 q.1 with h' | h'
      · exact Or.inl (Or.inr ⟨h, h'⟩)
      · exact Or.inr (Or.inr ⟨h.symm, h'⟩)
    · exact Or.inr (Or.inl h)

instance : IsTrans (ℕ × ℝ) stableRel where
  trans p q r hpq hqr := by
    rcases hpq with h1 | ⟨h1, h1'⟩ <;> rcases hqr with h2 | ⟨h2, h2'⟩
    · exact Or.inl (lt_trans h1 h2)
    · exact Or.inl (h2 ▸ h1)
    · exact Or.inl (h1 ▸ h2)
    · exact Or.inr ⟨h1.trans h2, h1'.trans h2'⟩

/-- Source line 190: `gs = np.mean(carpet, axis=0)` — the global signal,
the mean over all retained rows at each timepoint. -/
noncomputable def gsOf (c : List (ℕ → ℝ)) : ℕ → ℝ :=
  fun t => (c.map (fun r => r t)).sum / c.length

/-- Source line 191:
`gs_corr = pearsonr_2d(carpet, gs.reshape((1, self.t))).flatten()` —
entry `i` is the correlation of carpet row `i` with the global signal
(the `(i, 0)` entry of the `pearsonr_2d` result against the one-row
matrix holding `gs`). -/
noncomputable def gsCorr (T : ℕ) (c : List (ℕ → ℝ)) : List ℝ :=
  c.map (fun r => pearsonr_2d T (fun _ => r) (fun _ => gsOf c) 0 0)

/-- `np.argsort` (ascending): sort the `(index, value)` pairs of `l.enum`
by value and return the indices.  NumPy's default kind (quicksort, an
introsort) leaves the tie order unspecified in general, so conclusions
about tie order are only drawn for lists short enough (length ≤ 15) to
fall entirely inside its insertion-sort path, which is stable — the tie
order this model fixes.  The value-ordering, permutation and extremal
properties of the result do not depend on the tie model. -/
noncomputable def argsortStable (l : List ℝ) : List ℕ :=
  (List.insertionSort stableRel l.enum).map Prod.fst

/-- Source line 192: `sort_index = np.flip(np.argsort(gs_corr))`. -/
noncomputable def sortIndexOf (T : ℕ) (c : List (ℕ → ℝ)) : List ℕ :=
  (argsortStable (gsCorr T c)).reverse

/-- Out-of-range row placeholder for list indexing (`sort_index` only
holds in-range indices, so it is never actually read). -/
def rowDefault : ℕ → ℝ := fun _ => 0

/-- Source line 193: `carpet = carpet[sort_index, :]` — the reorder step
of `get_carpet`. -/
noncomputable def reorderStep (T : ℕ) (c : List (ℕ → ℝ)) : List (ℕ → ℝ) :=
  (sortIndexOf T c).map (fun k => c.getD k rowDefault)

/-- Source lines 157-202, `Dataset.get_carpet`: mask/tSNR filtering,
z-score normalization, then the optional reorder step — the value
produced on runs that complete (see `getCarpetRun` for the error
regimes). -/
noncomputable def getCarpet (D : FmriInput) (thresh : Option ℝ)
    (reorder : Bool) : List (ℕ → ℝ) :=
  if reorder then reorderStep D.T (carpetN D thresh) else carpetN D thresh

/-- Source line 168: `data_tsnr.squeeze()` drops ALL size-1 axes — the
kept time axis and any singleton spatial dim.  When a threshold is given
and some spatial dim equals 1, the squeezed array has fewer than 3 axes
and `tsnr_mask[:, :, :, np.newaxis]` (line 169) raises `IndexError`. -/
def squeezeCrash (D : FmriInput) (thresh : Option ℝ) : Prop :=
  thresh.isSome = true ∧ (D.X = 1 ∨ D.Y = 1 ∨ D.Z = 1)

/-- The combined exclusion mask of line 171 has at least one set entry.
This is exactly `(mask_4d | tsnr_mask_4d).any()`: when it is false (no
voxel-timepoint excluded — including the degenerate cases of zero voxels
or zero timepoints, where the array is empty), `np.ma.masked_where`
shrinks the mask to `nomask` and line 178 raises `AxisError`. -/
def someVoxelExcluded (D : FmriInput) (thresh : Option ℝ) : Prop :=
  ∃ v ∈ Finset.range (D.X * D.Y * D.Z), ∃ t ∈ Finset.range D.T,
    excluded2d D thresh v t

/-- `get_carpet` as a fallible computation, source lines 157-202: with a
threshold and a singleton spatial dim the tsnr-mask construction raises
`IndexError` (line 168-169); otherwise, if no voxel-timepoint is
excluded, the shrunk `nomask` makes line 178 raise `AxisError`; on all
remaining inputs the run completes and returns the carpet. -/
noncomputable def getCarpetRun (D : FmriInput) (thresh : Option ℝ)
    (reorder : Bool) : Except PcarpetError (List (ℕ → ℝ)) :=
  haveI : Decidable (squeezeCrash D thresh) := Classical.propDecidable _
  haveI : Decidable (someVoxelExcluded D thresh) := Classical.propDecidable _
  if squeezeCrash D thresh then .error .indexError
  else if someVoxelExcluded D thresh then .ok (getCarpet D thresh reorder)
  else .error .axisError

/-- Modelled from the spec's words for claim C4: descending order on
(original index, correlation) pairs with ties broken by ORIGINAL
(ascending) row order — "sort rows by this value descending; ties broken
by original row order (stable sort)". -/
def specRel : ℕ × ℝ → ℕ × ℝ → Prop :=
  fun p q => q.2 < p.2 ∨ (p.2 = q.2 ∧ p.1 ≤ q.1)

noncomputable instance : DecidableRel specRel :=
  fun _ _ => Classical.propDecidable _

/-- Modelled from the spec's words for claim C4: the reorder step as the
claim describes it — rows sorted by descending correlation with the
global signal, ties broken stably by original row order. -/
noncomputable def specReorderStable (T : ℕ) (c : List (ℕ → ℝ)) : List (ℕ → ℝ) :=
  ((List.insertionSort specRel (gsCorr T c).enum).map Prod.fst).map
    (fun k => c.getD k rowDefault)

/-- First row used by the C4 counterexample. -/
def rA : ℕ → ℝ := fun t => if t = 0 then 1 else -1

/-- Second row used by the C4 counterexample (the negation of `rA`, so
both rows have the same — zero — correlation with the zero global
signal). -/
def rB : ℕ → ℝ := fun t => if t = 0 then -1 else 1

/-- Three-voxel, two-timepoint input for claim C4: voxel 2 is excluded by
the mask (so the exclusion mask is nonempty and `get_carpet` completes
without the `nomask` AxisError; no threshold is used, so no squeeze
IndexError), leaving the carpet rows `rA` and `rB`, which tie
(correlation 0) against the global signal. -/
def Dtie : FmriInput :=
  ⟨1, 1, 3, 2, fun _ _ z t => if z = 0 then rA t else rB t,
    fun _ _ z => if z = 2 then 0 else 1⟩

/-- Two-voxel input for the C2 witness: voxel 1 is excluded by the mask
(a nonempty exclusion set, so the run completes), no threshold. -/
def D2b : FmriInput :=
  ⟨1, 1, 2, 2, fun _ _ _ _ => 1, fun _ _ z => if z = 0 then 1 else 0⟩

/-- One-voxel input whose mask excludes every voxel, used for claim C8. -/
def D8 : FmriInput :=
  ⟨1, 1, 1, 1, fun _ _ _ _ => 1, fun _ _ _ => 0⟩

/-- Ascending sort of a list of reals (used to model `np.median`). -/
noncomputable def sortR (l : List ℝ) : List ℝ :=
  List.insertionSort (· ≤ ·) l

/-- `np.median`: the middle element of the sorted values for odd length,
the average of the two middle elements for even length.  (`np.median` of
an empty array is NaN with a warning; it is modelled as 0 here — in both
cases the median is not negative, so the sign-flip decision below is the
same.) -/
noncomputable def npMedian (l : List ℝ) : ℝ :=
  if l.length = 0 then 0
  else if l.length % 2 = 1 then (sortR l).getD (l.length / 2) 0
  else ((sortR l).getD (l.length / 2 - 1) 0 + (sortR l).getD (l.length / 2) 0) / 2

/-- Source lines 268-269: `np.median(PC_carpet_R[:, i])` — the median of
component `i`'s correlations with the `V` carpet rows, where
`PC_carpet_R = pearsonr_2d(carpet, components)` (line 261). -/
noncomputable def pcMedian (V Tt : ℕ) (carpet comps : ℕ → ℕ → ℝ) (i : ℕ) : ℝ :=
  npMedian ((List.range V).map (fun v => pearsonr_2d Tt carpet comps v i))

/-- Everything `fit_pca_and_correlate` persists to the artifact store or
keeps as session state.  Tables indexed `(t, i)` hold component `i`'s
value at time `t`; `memR` is indexed `(v, i)` for carpet row `v`. -/
structure FitResult where
  savedCompsAll : ℕ → ℕ → ℝ
  savedExplVarAll : ℕ → ℝ
  savedScores : Option (ℕ → ℕ → ℝ)
  savedPCsTable : ℕ → ℕ → ℝ
  savedReportExplVar : ℕ → ℝ
  savedReportMedian : ℕ → ℝ
  memCarpet : ℕ → ℕ → ℝ
  memExplVar : ℕ → ℝ
  memPCs : ℕ → ℕ → ℝ
  memR : ℕ → ℕ → ℝ

/-- Source lines 204-281, `Dataset.fit_pca_and_correlate`, with the PCA
decomposition itself (an external library call, line 238-241) supplied as
inputs: `comps` is `model.components_` (component `i`'s time series is
`comps i`), `explVar` is `model.explained_variance_ratio_`, `scores` is
the `fit_transform` result.  `V` is the carpet's row count, `Tt` its
column count, `ncomp` the retained component count.  All artifact saves
(lines 244-256 and 270-272) happen before the sign-flip loop (lines
273-277); the loop ranges over the `ncomp` columns of the `PCs`
DataFrame and mutates only the in-memory `PCs` table and `PC_carpet_R`
matrix, negating column `i` when the (pre-computed) report median of
column `i` is negative. -/
noncomputable def fit_pca_and_correlate (V Tt : ℕ) (carpet : ℕ → ℕ → ℝ)
    (comps : ℕ → ℕ → ℝ) (explVar : ℕ → ℝ) (scores : ℕ → ℕ → ℝ)
    (ncomp : ℕ) (savePcaScores flipSign : Bool) : FitResult :=
  { savedCompsAll := comps
    savedExplVarAll := explVar
    savedScores := if savePcaScores then some scores else none
    savedPCsTable := fun t i => comps i t
    savedReportExplVar := explVar
    savedReportMedian := pcMedian V Tt carpet comps
    memCarpet := carpet
    memExplVar := explVar
    memPCs := fun t i =>
      if flipSign ∧ i < ncomp ∧ pcMedian V Tt carpet comps i < 0
      then -(comps i t) else comps i t
    memR := fun v i =>
      if flipSign ∧ i < ncomp ∧ pcMedian V Tt carpet comps i < 0
      then -(pearsonr_2d Tt carpet comps v i) else pearsonr_2d Tt carpet comps v i }

/-- Python slicing length `len(x[:stop])` for a sequence of length `n`
and a possibly negative integer `stop` (negative stops count from the
end, clamped at 0; non-negative stops are clamped at `n`). -/
def pySliceLen (n : ℕ) (stop : ℤ) : ℕ :=
  if 0 ≤ stop then min stop.toNat n else n - (-stop).toNat

/-- Source lines 232-256 of `fit_pca_and_correlate`, restricted to the
behaviour that depends on `ncomp` for an integer-valued `ncomp`, on a
`V × Tt` carpet for which the PCA fit itself succeeds (`V ≥ 1`,
`Tt ≥ 1`): `self.ncomp = int(ncomp)` always succeeds for an integer (the
except branch, lines 234-235, only prints a warning and raises nothing),
the source performs NO validation of `ncomp`, and the only
`ncomp`-dependent statement that can raise is the construction of the
component table
`pd.DataFrame(data=model.components_.T[:, :ncomp], columns=comp_names)`
(line 253).  `PCA(whiten=True)` with `n_components=None` keeps
`min(n_samples, n_features) = min(V, Tt)` components, so
`model.components_.T` has `min V Tt` columns, and
`comp_names = ['PC' + str(i+1) for i in range(ncomp)]` has
`max(ncomp, 0)` entries: pandas raises `ValueError` exactly when the
column count of the sliced data, `pySliceLen (min V Tt) ncomp`, differs
from the number of names. -/
def fitNcompOutcome (V Tt : ℕ) (ncomp : ℤ) : Except PcarpetError Unit :=
  if pySliceLen (min V Tt) ncomp = ncomp.toNat then .ok ()
  else .error .tableShapeError

end Pcarpet

namespace Pcarpet

/-! ### Helper lemmas -/

/-- Membership in a classically-decided filter. -/
theorem mem_filterP {α : Type} {p : α → Prop} {l : List α} {a : α} :
    a ∈ filterP p l ↔ a ∈ l ∧ p a := by
  simp [filterP, List.mem_filter]

/-- Pointwise-equivalent predicates give equal filters. -/
theorem filterP_congr {α : Type} {p q : α → Prop} {l : List α}
    (h : ∀ a ∈ l, p a ↔ q a) : filterP p l = filterP q l := by
  unfold filterP
  exact List.filter_congr (fun a ha => by
    simpa [decide_eq_decide] using h a ha)

theorem filterP_nil {α : Type} {p : α → Prop} : filterP p [] = [] := rfl

theorem filterP_cons_pos {α : Type} {p : α → Prop} {l : List α} {a : α}
    (h : p a) : filterP p (a :: l) = a :: filterP p l := by
  simp [filterP, List.filter_cons, h]

theorem filterP_cons_neg {α : Type} {p : α → Prop} {l : List α} {a : α}
    (h : ¬ p a) : filterP p (a :: l) = filterP p l := by
  simp [filterP, List.filter_cons, h]

/-- Reading back a list through its own indices is the identity. -/
theorem map_getD_range {α : Type} (l : List α) (d : α) :
    (List.range l.length).map (fun k => l.getD k d) = l := by
  apply List.ext_getElem (by simp)
  intro n h1 h2
  rw [List.getElem_map, List.getElem_range]
  exact List.getD_eq_getElem l d h2

/-- The code's row-retention test (`np.any` over the unmasked entries of a
row, source line 178) coincides with the spec's retention predicate as
soon as there is at least one timepoint, because the exclusion mask is
constant along the time axis. -/
theorem anyValidRow_iff_specRetained (D : FmriInput) (thresh : Option ℝ)
    (v : ℕ) (hT : 0 < D.T) :
    anyValidRow D thresh v ↔ specRetained D thresh v := by
  constructor
  · rintro ⟨t, _, hnex⟩
    rw [excluded2d] at hnex
    push_neg at hnex
    obtain ⟨h1, h2⟩ := hnex
    refine ⟨not_lt.mp h1, ?_⟩
    intro th hth
    subst hth
    exact not_lt.mp h2
  · rintro ⟨h1, h2⟩
    refine ⟨0, Finset.mem_range.mpr hT, ?_⟩
    rintro (h | h)
    · exact not_lt.mpr h1 h
    · cases thresh with
      | none => exact h
      | some th => exact not_lt.mpr (h2 th rfl) h

/-- Position `k` of the reversed negated list reads position
`length - 1 - k` of the original, negated. -/
theorem getD_revneg (s : List ℝ) (k : ℕ) (hk : k < s.length) :
    ((s.map (fun x => -x)).reverse).getD k 0 = -(s.getD (s.length - 1 - k) 0) := by
  have h1 : k < ((s.map (fun x => -x)).reverse).length := by simpa using hk
  rw [List.getD_eq_getElem _ _ h1, List.getElem_reverse, List.getElem_map]
  simp only [List.length_map]
  rw [List.getD_eq_getElem _ _ (show s.length - 1 - k < s.length by omega)]

/-- Sorting the negated values gives the reversal of the negated sorted
values. -/
theorem sortR_map_neg (l : List ℝ) :
    sortR (l.map (fun x => -x)) = ((sortR l).map (fun x => -x)).reverse := by
  apply List.eq_of_perm_of_sorted (r := (· ≤ ·))
  · have p1 : (sortR (l.map (fun x => -x))).Perm (l.map (fun x => -x)) :=
      List.perm_insertionSort _ _
    have p2 : ((sortR l).map (fun x => -x)).Perm (l.map (fun x => -x)) :=
      (List.perm_insertionSort _ _).map _
    have p3 : (((sortR l).map (fun x => -x)).reverse).Perm
        ((sortR l).map (fun x => -x)) := List.reverse_perm _
    exact p1.trans (p3.trans p2).symm
  · exact List.sorted_insertionSort _ _
  · have hs : List.Pairwise (· ≤ ·) (sortR l) := List.sorted_insertionSort _ _
    have hmap : List.Pairwise (fun a b : ℝ => b ≤ a)
        ((sortR l).map (fun x => -x)) :=
      List.Pairwise.map _ (fun _ _ hab => neg_le_neg hab) hs
    exact List.pairwise_reverse.mpr hmap

/-- `np.median` commutes with negation: the median of the negated values
is the negated median. -/
theorem npMedian_map_neg (l : List ℝ) :
    npMedian (l.map (fun x => -x)) = -npMedian l := by
  rcases Nat.eq_zero_or_pos l.length with h0 | h0
  · have hnil : l = [] := List.length_eq_zero.mp h0
    subst hnil
    simp [npMedian]
  · have h0' : l.length ≠ 0 := h0.ne'
    have hslen : (sortR l).length = l.length :=
      (List.perm_insertionSort _ _).length_eq
    unfold npMedian
    simp only [List.length_map, sortR_map_neg]
    rw [if_neg h0', if_neg h0']
    by_cases hodd : l.length % 2 = 1
    · rw [if_pos hodd, if_pos hodd]
      rw [getD_revneg _ _ (by omega : l.length / 2 < (sortR l).length)]
      have hidx : (sortR l).length - 1 - l.length / 2 = l.length / 2 := by
        rw [hslen]; omega
      rw [hidx]
    · rw [if_neg hodd, if_neg hodd]
      have hmod : l.length % 2 = 0 := by omega
      rw [getD_revneg _ _ (by omega : l.length / 2 - 1 < (sortR l).length),
        getD_revneg _ _ (by omega : l.length / 2 < (sortR l).length)]
      have hidx1 : (sortR l).length - 1 - (l.length / 2 - 1) = l.length / 2 := by
        rw [hslen]; omega
      have hidx2 : (sortR l).length - 1 - l.length / 2 = l.length / 2 - 1 := by
        rw [hslen]; omega
      rw [hidx1, hidx2]
      ring

/-- When filtering retains no voxel the carpet is the empty row list, with
or without reordering. -/
theorem getCarpet_nil_of_no_indices (D : FmriInput) (thresh : Option ℝ)
    (reorder : Bool) (h : indicesValid D thresh = []) :
    getCarpet D thresh reorder = [] := by
  have hcN : carpetN D thresh = [] := by
    rw [carpetN, carpetRaw, h]
    rfl
  rw [getCarpet]
  cases reorder
  · simp [hcN]
  · simp [hcN, reorderStep, sortIndexOf, argsortStable, gsCorr]

/-- On the all-masked-out input `D8` every voxel is excluded. -/
theorem indicesValid_D8_nil (thresh : Option ℝ) :
    indicesValid D8 thresh = [] := by
  have hrange : List.range (D8.X * D8.Y * D8.Z) = [0] := by decide
  rw [indicesValid, hrange, filterP_cons_neg, filterP_nil]
  rintro ⟨t, ht, hnex⟩
  exact hnex (Or.inl (by norm_num [maskExcluded, D8]))

/-! ### Claim theorems -/

/-- Claim C1: for matrices with `T ≥ 2` columns (any row counts, including
a single row), every entry `(i, j)` of `pearsonr_2d A B` equals the dot
product of the mean-centred row `i` of `A` with the mean-centred row `j`
of `B`, divided by the square root of the product of the two rows' sums of
squared deviations plus `EPSILON = 1e-9`. -/
theorem C1_pearsonr_2d_entry_formula (T : ℕ) (A B : ℕ → ℕ → ℝ) (i j : ℕ)
    (hT : 2 ≤ T) :
    pearsonr_2d T A B i j = specPearsonEntry T (A i) (B j) := by
  rfl

/-- Concrete instantiation of `C1_pearsonr_2d_entry_formula` at `T = 2`
with explicit `1 × 2` matrices. -/
theorem C1_pearsonr_2d_entry_formula_witness :
    2 ≤ 2 ∧
      pearsonr_2d 2 (fun _ t => if t = 0 then 1 else 3)
          (fun _ t => if t = 0 then 5 else 2) 0 0 =
        specPearsonEntry 2 (fun t => if t = 0 then 1 else 3)
          (fun t => if t = 0 then 5 else 2) := by
  exact ⟨by decide,
    C1_pearsonr_2d_entry_formula 2 (fun _ t => if t = 0 then 1 else 3)
      (fun _ t => if t = 0 then 5 else 2) 0 0 (by decide)⟩

/-- Claim C10: `pearsonr_2d` is total and never divides by zero — each
denominator entry is positive and at least `EPSILON = 1e-9`, and a
constant row (hence zero sum of squared deviations) yields correlation
exactly `0`, not an error. -/
theorem C10_pearsonr_2d_denominator_safe (T : ℕ) (A B : ℕ → ℕ → ℝ)
    (i j : ℕ) :
    0 < Real.sqrt (rowSS T A i * rowSS T B j) + EPSILON ∧
      EPSILON ≤ Real.sqrt (rowSS T A i * rowSS T B j) + EPSILON ∧
      ((∀ t₁ t₂ : ℕ, A i t₁ = A i t₂) → pearsonr_2d T A B i j = 0) := by
  have hsq : (0:ℝ) ≤ Real.sqrt (rowSS T A i * rowSS T B j) :=
    Real.sqrt_nonneg _
  have heps : (0:ℝ) < EPSILON := by norm_num [EPSILON]
  refine ⟨by linarith, by linarith, ?_⟩
  intro hconst
  have hzero : ∀ t ∈ Finset.range T, centerRows T A i t * centerRows T B j t = 0 := by
    intro t ht
    have hmean : rowMean T (A i) = A i t := by
      have hTpos : 0 < T := lt_of_le_of_lt (Nat.zero_le t) (Finset.mem_range.mp ht)
      have hsum : (∑ s ∈ Finset.range T, A i s) = T * A i t := by
        rw [Finset.sum_congr rfl (fun s _ => hconst s t)]
        simp [mul_comm]
      have hTne : (T:ℝ) ≠ 0 := Nat.cast_ne_zero.mpr hTpos.ne'
      rw [rowMean, hsum, mul_comm, mul_div_assoc, div_self hTne, mul_one]
    have : centerRows T A i t = 0 := by
      simp [centerRows, hmean]
    rw [this, zero_mul]
  rw [pearsonr_2d, Finset.sum_eq_zero hzero, zero_div]

/-- Concrete instantiation of `C10_pearsonr_2d_denominator_safe` with the
constant row `A = 5` correlated against `B = 3`, at `T = 2`. -/
theorem C10_pearsonr_2d_denominator_safe_witness :
    0 < Real.sqrt (rowSS 2 (fun _ _ => (5:ℝ)) 0 * rowSS 2 (fun _ _ => (3:ℝ)) 0) + EPSILON ∧
      EPSILON ≤ Real.sqrt (rowSS 2 (fun _ _ => (5:ℝ)) 0 * rowSS 2 (fun _ _ => (3:ℝ)) 0) + EPSILON ∧
      pearsonr_2d 2 (fun _ _ => (5:ℝ)) (fun _ _ => (3:ℝ)) 0 0 = 0 := by
  obtain ⟨h1, h2, h3⟩ :=
    C10_pearsonr_2d_denominator_safe 2 (fun _ _ => (5:ℝ)) (fun _ _ => (3:ℝ)) 0 0
  exact ⟨h1, h2, h3 (fun _ _ => rfl)⟩

/-- Claim C9: `import_data` fails with ShapeMismatch exactly when the
volume is not 4-d, or the mask is not 3-d, or the volume's first three
dimensions differ from the mask's; when all checks pass the volume and
mask are returned (stored) unchanged. -/
theorem C9_import_data_validation (data mask : NDArr) :
    (import_data data mask = .ok (data, mask) ↔
      (data.shape.length = 4 ∧ mask.shape.length = 3 ∧
        data.shape.take 3 = mask.shape)) ∧
    (import_data data mask = .error .shapeMismatch ↔
      ¬ (data.shape.length = 4 ∧ mask.shape.length = 3 ∧
        data.shape.take 3 = mask.shape)) ∧
    (∀ r, import_data data mask = .ok r → r = (data, mask)) := by
  unfold import_data
  split_ifs with h1 h2 h3
  · simp_all
  · simp_all
  · simp_all
  · simp_all

/-- Claim C2, amended: on every input where `get_carpet` completes — no
threshold/singleton-dim squeeze crash and at least one voxel-timepoint
excluded — the run succeeds and the retained voxel-index sequence is
exactly the row-major flattened indices, kept in increasing (flattening)
order, of the voxels with mask value `≥ 0.5` and — when a threshold is
given — quality value `mean / (std + EPSILON) ≥ threshold`; with
`tSNR_thresh = None` the filter reduces to pure mask filtering, and the
carpet has exactly one row per retained index.  (On the remaining
inputs `get_carpet` raises IndexError or AxisError and computes no
retained sequence at all.) -/
theorem C2_get_carpet_retained_indices (D : FmriInput) (thresh : Option ℝ)
    (reorder : Bool) (hsq : ¬ squeezeCrash D thresh)
    (hex : someVoxelExcluded D thresh) :
    getCarpetRun D thresh reorder = .ok (getCarpet D thresh reorder) ∧
      indicesValid D thresh =
        filterP (specRetained D thresh) (List.range (D.X * D.Y * D.Z)) ∧
      indicesValid D none =
        filterP (fun v => 0.5 ≤ D.mask (vx D v) (vy D v) (vz D v))
          (List.range (D.X * D.Y * D.Z)) ∧
      (carpetN D thresh).length = (indicesValid D thresh).length := by
  have hT : 0 < D.T := by
    obtain ⟨-, -, t, ht, -⟩ := hex
    exact lt_of_le_of_lt (Nat.zero_le t) (Finset.mem_range.mp ht)
  refine ⟨?_,
    filterP_congr (fun v _ => anyValidRow_iff_specRetained D thresh v hT),
    ?_, by simp [carpetN, carpetRaw]⟩
  · unfold getCarpetRun
    rw [if_neg hsq, if_pos hex]
  · rw [indicesValid,
      filterP_congr (fun v _ => anyValidRow_iff_specRetained D none v hT)]
    refine filterP_congr (fun v _ => ?_)
    unfold specRetained
    constructor
    · exact fun h => h.1
    · exact fun h => ⟨h, fun th hth => by cases hth⟩

/-- Concrete instantiation of `C2_get_carpet_retained_indices` on the
two-voxel input `D2b` (voxel 1 masked out, no threshold). -/
theorem C2_get_carpet_retained_indices_witness :
    ¬ squeezeCrash D2b none ∧ someVoxelExcluded D2b none ∧
      (getCarpetRun D2b none false = .ok (getCarpet D2b none false) ∧
        indicesValid D2b none =
          filterP (specRetained D2b none) (List.range (D2b.X * D2b.Y * D2b.Z)) ∧
        indicesValid D2b none =
          filterP (fun v => 0.5 ≤ D2b.mask (vx D2b v) (vy D2b v) (vz D2b v))
            (List.range (D2b.X * D2b.Y * D2b.Z)) ∧
        (carpetN D2b none).length = (indicesValid D2b none).length) := by
  have hsq : ¬ squeezeCrash D2b none := fun h => Bool.false_ne_true h.1
  have hex : someVoxelExcluded D2b none := by
    refine ⟨1, by decide, 0, by decide, Or.inl ?_⟩
    norm_num [maskExcluded, D2b, vx, vy, vz]
  exact ⟨hsq, hex, C2_get_carpet_retained_indices D2b none false hsq hex⟩

/-- Counterexample to claim C2 as stated: the claim ranges over every
volume/mask/threshold setting, but on the one-voxel input `D2` with the
default threshold `15.0`, `get_carpet` raises `IndexError` at the
tsnr-mask construction (`data_tsnr.squeeze()` drops the singleton
spatial dims) and computes no retained voxel-index sequence. -/
theorem C2_counterexample :
    getCarpetRun D2 (some 15) true = Except.error PcarpetError.indexError := by
  have h : squeezeCrash D2 (some 15) := ⟨rfl, Or.inl rfl⟩
  unfold getCarpetRun
  rw [if_pos h]

/-- Claim C3: every carpet row is z-score normalized across time — each
normalized row belongs to the carpet and has mean exactly 0 and standard
deviation exactly 1, except rows whose pre-normalization standard
deviation is zero (for which NumPy propagates NaN without raising; the
embedding is total, so no error case exists). -/
theorem C3_carpet_rows_zscore_normalized (D : FmriInput) (thresh : Option ℝ)
    (r : ℕ → ℝ) (hr : r ∈ carpetRaw D thresh) (hσ : popStd D.T r ≠ 0) :
    zscoreRow D.T r ∈ carpetN D thresh ∧
      rowMean D.T (zscoreRow D.T r) = 0 ∧
      popStd D.T (zscoreRow D.T r) = 1 := by
  have hmem : zscoreRow D.T r ∈ carpetN D thresh := by
    rw [carpetN]
    exact List.mem_map_of_mem _ hr
  have hTpos : 0 < D.T := by
    by_contra h
    push_neg at h
    rw [Nat.le_zero] at h
    apply hσ
    simp [popStd, popVar, h]
  have hTne : (D.T : ℝ) ≠ 0 := Nat.cast_ne_zero.mpr hTpos.ne'
  have hv0 : 0 ≤ popVar D.T r :=
    div_nonneg (Finset.sum_nonneg fun _ _ => sq_nonneg _) (Nat.cast_nonneg _)
  have hσsq : popStd D.T r ^ 2 = popVar D.T r := Real.sq_sqrt hv0
  have hvne : popVar D.T r ≠ 0 := by
    intro h
    exact hσ (by rw [popStd, h, Real.sqrt_zero])
  have hsum : ∑ t ∈ Finset.range D.T, (r t - rowMean D.T r) = 0 := by
    rw [Finset.sum_sub_distrib, Finset.sum_const, Finset.card_range, rowMean,
      nsmul_eq_mul]
    field_simp
  have hmean : rowMean D.T (zscoreRow D.T r) = 0 := by
    rw [rowMean]
    have : ∑ t ∈ Finset.range D.T, zscoreRow D.T r t =
        (∑ t ∈ Finset.range D.T, (r t - rowMean D.T r)) / popStd D.T r := by
      rw [Finset.sum_div]
      rfl
    rw [this, hsum, zero_div, zero_div]
  refine ⟨hmem, hmean, ?_⟩
  have hvar1 : popVar D.T (zscoreRow D.T r) = 1 := by
    rw [popVar, hmean]
    have : ∀ t ∈ Finset.range D.T,
        (zscoreRow D.T r t - 0) ^ 2 =
          (r t - rowMean D.T r) ^ 2 / popStd D.T r ^ 2 := by
      intro t _
      rw [sub_zero, zscoreRow, div_pow]
    rw [Finset.sum_congr rfl this, ← Finset.sum_div, hσsq]
    rw [div_div, mul_comm, ← div_div, ← popVar]
    exact div_self hvne
  rw [popStd, hvar1, Real.sqrt_one]

/-- Concrete instantiation of `C3_carpet_rows_zscore_normalized` on the
input `D3`, whose single carpet row is `(1, -1)` with standard
deviation 1. -/
theorem C3_carpet_rows_zscore_normalized_witness :
    r3 ∈ carpetRaw D3 none ∧ popStd D3.T r3 ≠ 0 ∧
      (zscoreRow D3.T r3 ∈ carpetN D3 none ∧
        rowMean D3.T (zscoreRow D3.T r3) = 0 ∧
        popStd D3.T (zscoreRow D3.T r3) = 1) := by
  have hμ : rowMean 2 r3 = 0 := by
    norm_num [rowMean, Finset.sum_range_succ, r3]
  have hv : popVar 2 r3 = 1 := by
    norm_num [popVar, Finset.sum_range_succ, hμ, r3]
  have hσ : popStd D3.T r3 ≠ 0 := by
    show popStd 2 r3 ≠ 0
    rw [popStd, hv, Real.sqrt_one]
    norm_num
  have hiv : indicesValid D3 none = [0] := by
    have hrange : List.range (D3.X * D3.Y * D3.Z) = [0] := by decide
    rw [indicesValid, hrange, filterP_cons_pos, filterP_nil]
    refine ⟨0, by decide, ?_⟩
    rintro (h | h)
    · norm_num [maskExcluded, D3] at h
    · exact h
  have hr : r3 ∈ carpetRaw D3 none := by
    rw [carpetRaw, hiv]
    simp only [List.map_cons, List.map_nil, List.mem_cons]
    left
    rfl
  exact ⟨hr, hσ, C3_carpet_rows_zscore_normalized D3 none r3 hr hσ⟩

/-- Claim C4, amended: on runs that complete, the reorder step emits a
permutation of the normalized carpet's rows, the emitted index list is a
permutation of all row positions, the rows appear in order of
nonincreasing correlation with the global signal, and the first row's
correlation is maximal.  The claimed tie-break by original row order is
wrong: `np.argsort`'s default quicksort leaves the tie order unspecified
in general, and for carpets small enough (≤ 15 rows) to run entirely in
its stable insertion-sort path, the subsequent `np.flip` emits tied rows
in REVERSED original row order. -/
theorem C4_reorder_descending_reversed_ties (T : ℕ) (c : List (ℕ → ℝ)) :
    (reorderStep T c).Perm c ∧
      (sortIndexOf T c).Perm (List.range c.length) ∧
      (c.length ≤ 15 → List.Pairwise (fun i j : ℕ =>
          (gsCorr T c).getD j 0 ≤ (gsCorr T c).getD i 0 ∧
            ((gsCorr T c).getD i 0 = (gsCorr T c).getD j 0 → j ≤ i))
        (sortIndexOf T c)) ∧
      ∀ x ∈ gsCorr T c, x ≤ (gsCorr T c).getD ((sortIndexOf T c).headI) 0 := by
  have hklen : (gsCorr T c).length = c.length := by
    rw [gsCorr]
    exact List.length_map _ _
  have hperm : (sortIndexOf T c).Perm (List.range c.length) := by
    have p1 : (sortIndexOf T c).Perm
        ((List.insertionSort stableRel (gsCorr T c).enum).map Prod.fst) := by
      rw [sortIndexOf, argsortStable]
      exact List.reverse_perm _
    have p2 : ((List.insertionSort stableRel (gsCorr T c).enum).map Prod.fst).Perm
        ((gsCorr T c).enum.map Prod.fst) :=
      (List.perm_insertionSort stableRel (gsCorr T c).enum).map Prod.fst
    have p3 : (gsCorr T c).enum.map Prod.fst = List.range c.length := by
      rw [List.enum_map_fst, hklen]
    exact (p1.trans p2).trans (p3 ▸ List.Perm.refl _)
  have hrows : (reorderStep T c).Perm c := by
    rw [reorderStep]
    have h := hperm.map (fun k => c.getD k rowDefault)
    rwa [map_getD_range c rowDefault] at h
  have hmemfact : ∀ p ∈ List.insertionSort stableRel (gsCorr T c).enum,
      p.2 = (gsCorr T c).getD p.1 0 ∧ p.1 < (gsCorr T c).length := by
    rintro ⟨i, x⟩ hp
    have hp' : (i, x) ∈ (gsCorr T c).enum :=
      (List.perm_insertionSort stableRel (gsCorr T c).enum).mem_iff.mp hp
    obtain ⟨hlt, hx⟩ := List.mem_enum hp'
    exact ⟨by rw [List.getD_eq_getElem _ _ hlt]; exact hx, hlt⟩
  have hsorted : List.Pairwise stableRel
      (List.insertionSort stableRel (gsCorr T c).enum) :=
    List.sorted_insertionSort stableRel (gsCorr T c).enum
  have hrevpw : List.Pairwise (fun p q : ℕ × ℝ => stableRel q p)
      ((List.insertionSort stableRel (gsCorr T c).enum).reverse) :=
    List.pairwise_reverse.mpr hsorted
  have hpw : List.Pairwise (fun i j : ℕ =>
      (gsCorr T c).getD j 0 ≤ (gsCorr T c).getD i 0 ∧
        ((gsCorr T c).getD i 0 = (gsCorr T c).getD j 0 → j ≤ i))
      (sortIndexOf T c) := by
    rw [sortIndexOf, argsortStable, ← List.map_reverse, List.pairwise_map]
    refine hrevpw.imp_of_mem ?_
    intro p q hpmem hqmem hrel
    have hp := hmemfact p (List.mem_reverse.mp hpmem)
    have hq := hmemfact q (List.mem_reverse.mp hqmem)
    rcases hrel with h | ⟨h, h'⟩
    · refine ⟨?_, ?_⟩
      · rw [← hp.1, ← hq.1]
        exact le_of_lt h
      · intro heq
        rw [← hp.1, ← hq.1] at heq
        exact absurd h (heq ▸ lt_irrefl p.2)
    · exact ⟨by rw [← hp.1, ← hq.1]; exact le_of_eq h, fun _ => h'⟩
  refine ⟨hrows, hperm, fun _ => hpw, ?_⟩
  intro x hx
  obtain ⟨n, hn, hxn⟩ := List.mem_iff_getElem.mp hx
  have hnmem : n ∈ sortIndexOf T c :=
    hperm.mem_iff.mpr (List.mem_range.mpr (by rw [← hklen]; exact hn))
  cases hcons : sortIndexOf T c with
  | nil =>
    rw [hcons] at hnmem
    exact absurd hnmem (List.not_mem_nil n)
  | cons k0 rest =>
    rw [hcons] at hnmem hpw
    rw [List.headI_cons]
    obtain ⟨hk0, -⟩ := List.pairwise_cons.mp hpw
    rcases List.mem_cons.mp hnmem with rfl | hmem
    · rw [List.getD_eq_getElem _ _ hn, hxn]
    · have h := (hk0 n hmem).1
      rwa [List.getD_eq_getElem _ _ hn, hxn] at h

/-- Concrete instantiation of `C4_reorder_descending_reversed_ties` on
the singleton carpet `[rA]`, discharging the small-carpet bound of the
tie-order conjunct. -/
theorem C4_reorder_descending_reversed_ties_witness :
    ([rA] : List (ℕ → ℝ)).length ≤ 15 ∧
      List.Pairwise (fun i j : ℕ =>
          (gsCorr 2 [rA]).getD j 0 ≤ (gsCorr 2 [rA]).getD i 0 ∧
            ((gsCorr 2 [rA]).getD i 0 = (gsCorr 2 [rA]).getD j 0 → j ≤ i))
        (sortIndexOf 2 [rA]) := by
  have h : ([rA] : List (ℕ → ℝ)).length ≤ 15 := by norm_num
  exact ⟨h, (C4_reorder_descending_reversed_ties 2 [rA]).2.2.1 h⟩

/-- Counterexample to claim C4 as stated: on input `Dtie` (one voxel
masked out, so the run completes) both carpet rows tie (correlation 0
with the zero global signal), and `get_carpet` emits them in reversed
original order `[rB, rA]`, whereas the claimed stable-descending sort
(ties by original row order) would emit `[rA, rB]`.  A 2-row carpet
lies well inside NumPy's insertion-sort path, where `np.argsort`'s
behaviour is deterministic. -/
theorem C4_counterexample :
    getCarpetRun Dtie none true = Except.ok [rB, rA] ∧
      specReorderStable 2 (carpetN Dtie none) = [rA, rB] ∧
      getCarpetRun Dtie none true ≠
        Except.ok (specReorderStable 2 (carpetN Dtie none)) := by
  have hT4 : Dtie.T = 2 := rfl
  have hrange : List.range (Dtie.X * Dtie.Y * Dtie.Z) = [0, 1, 2] := by decide
  have hv0 : anyValidRow Dtie none 0 := by
    refine ⟨0, by decide, ?_⟩
    rintro (h | h)
    · norm_num [maskExcluded, Dtie, vx, vy, vz] at h
    · exact h
  have hv1 : anyValidRow Dtie none 1 := by
    refine ⟨0, by decide, ?_⟩
    rintro (h | h)
    · norm_num [maskExcluded, Dtie, vx, vy, vz] at h
    · exact h
  have hnot2 : ¬ anyValidRow Dtie none 2 := by
    rintro ⟨t, ht, hnex⟩
    exact hnex (Or.inl (by norm_num [maskExcluded, Dtie, vx, vy, vz]))
  have hiv : indicesValid Dtie none = [0, 1] := by
    rw [indicesValid, hrange, filterP_cons_pos hv0,
      filterP_cons_pos hv1, filterP_cons_neg hnot2, filterP_nil]
  have hr0 : row2d Dtie 0 = rA := by
    funext t
    norm_num [row2d, Dtie, vx, vy, vz]
  have hr1 : row2d Dtie 1 = rB := by
    funext t
    norm_num [row2d, Dtie, vx, vy, vz]
  have hμA : rowMean 2 rA = 0 := by
    norm_num [rowMean, Finset.sum_range_succ, rA]
  have hvA : popVar 2 rA = 1 := by
    norm_num [popVar, Finset.sum_range_succ, hμA, rA]
  have hzA : zscoreRow 2 rA = rA := by
    funext t
    rw [zscoreRow, hμA, popStd, hvA, Real.sqrt_one, sub_zero, div_one]
  have hμB : rowMean 2 rB = 0 := by
    norm_num [rowMean, Finset.sum_range_succ, rB]
  have hvB : popVar 2 rB = 1 := by
    norm_num [popVar, Finset.sum_range_succ, hμB, rB]
  have hzB : zscoreRow 2 rB = rB := by
    funext t
    rw [zscoreRow, hμB, popStd, hvB, Real.sqrt_one, sub_zero, div_one]
  have hcN : carpetN Dtie none = [rA, rB] := by
    rw [carpetN, carpetRaw, hiv]
    simp only [List.map_cons, List.map_nil]
    rw [hr0, hr1, hT4, hzA, hzB]
  have hgs : gsOf [rA, rB] = fun _ => 0 := by
    funext t
    by_cases ht : t = 0 <;> simp [gsOf, rA, rB, ht]
  have hkeys : gsCorr 2 [rA, rB] = [0, 0] := by
    have hmz : rowMean 2 (fun _ : ℕ => (0:ℝ)) = 0 := by
      simp [rowMean]
    have hc : ∀ r : ℕ → ℝ,
        pearsonr_2d 2 (fun _ => r) (fun _ => gsOf [rA, rB]) 0 0 = 0 := by
      intro r
      rw [pearsonr_2d]
      have hz : ∀ t ∈ Finset.range 2,
          centerRows 2 (fun _ => r) 0 t *
            centerRows 2 (fun _ => gsOf [rA, rB]) 0 t = 0 := by
        intro t _
        have hcb : centerRows 2 (fun _ => gsOf [rA, rB]) 0 t = 0 := by
          rw [centerRows]
          show gsOf [rA, rB] t - rowMean 2 (gsOf [rA, rB]) = 0
          rw [hgs, hmz, sub_zero]
        rw [hcb, mul_zero]
      rw [Finset.sum_eq_zero hz, zero_div]
    rw [gsCorr]
    simp only [List.map_cons, List.map_nil]
    rw [hc rA, hc rB]
  have hstab : List.insertionSort stableRel [((0:ℕ), (0:ℝ)), (1, 0)] =
      [(0, 0), (1, 0)] := by
    simp only [List.insertionSort, List.orderedInsert]
    have hrel : stableRel ((0:ℕ), (0:ℝ)) (1, 0) := Or.inr ⟨rfl, by norm_num⟩
    rw [if_pos hrel]
  have hspec : List.insertionSort specRel [((0:ℕ), (0:ℝ)), (1, 0)] =
      [(0, 0), (1, 0)] := by
    simp only [List.insertionSort, List.orderedInsert]
    have hrel : specRel ((0:ℕ), (0:ℝ)) (1, 0) := Or.inr ⟨rfl, by norm_num⟩
    rw [if_pos hrel]
  have hcode : getCarpet Dtie none true = [rB, rA] := by
    have h1 : getCarpet Dtie none true = reorderStep 2 (carpetN Dtie none) := rfl
    rw [h1, hcN, reorderStep, sortIndexOf, argsortStable, hkeys]
    have henum : (([0, 0] : List ℝ)).enum = [(0, 0), (1, 0)] := rfl
    rw [henum, hstab]
    rfl
  have hspecR : specReorderStable 2 (carpetN Dtie none) = [rA, rB] := by
    rw [specReorderStable, hcN, hkeys]
    have henum : (([0, 0] : List ℝ)).enum = [(0, 0), (1, 0)] := rfl
    rw [henum, hspec]
    rfl
  have hsq : ¬ squeezeCrash Dtie none := fun h => Bool.false_ne_true h.1
  have hex : someVoxelExcluded Dtie none := by
    refine ⟨2, by decide, 0, by decide, Or.inl ?_⟩
    norm_num [maskExcluded, Dtie, vx, vy, vz]
  have hrun : getCarpetRun Dtie none true = .ok (getCarpet Dtie none true) := by
    unfold getCarpetRun
    rw [if_neg hsq, if_pos hex]
  refine ⟨by rw [hrun, hcode], hspecR, ?_⟩
  rw [hrun, hcode, hspecR]
  intro h
  have h1 : ([rB, rA] : List (ℕ → ℝ)) = [rA, rB] := by
    injection h
  have h0 := congrArg (fun l : List (ℕ → ℝ) => l.headI 0) h1
  simp only [List.headI_cons] at h0
  norm_num [rA, rB] at h0

/-- Claim C8, amended: when masking and quality filtering exclude every
voxel, `get_carpet` never fails with EmptyResult.  Unless the unrelated
threshold/singleton-dim IndexError fires first, the fully-excluded run
completes (the exclusion mask is nonempty, so there is no `nomask`
AxisError either) and returns an empty carpet with zero rows. -/
theorem C8_get_carpet_empty_gives_ok (D : FmriInput) (thresh : Option ℝ)
    (reorder : Bool) (hsq : ¬ squeezeCrash D thresh)
    (hex : someVoxelExcluded D thresh) (h : indicesValid D thresh = []) :
    getCarpetRun D thresh reorder = .ok [] := by
  unfold getCarpetRun
  rw [if_neg hsq, if_pos hex, getCarpet_nil_of_no_indices D thresh reorder h]

/-- The single voxel of `D8` is excluded by its all-zero mask. -/
theorem someVoxelExcluded_D8 : someVoxelExcluded D8 none := by
  refine ⟨0, by decide, 0, by decide, Or.inl ?_⟩
  norm_num [maskExcluded, D8]

/-- Concrete instantiation of `C8_get_carpet_empty_gives_ok` on the
all-masked-out input `D8` without a threshold. -/
theorem C8_get_carpet_empty_gives_ok_witness :
    ¬ squeezeCrash D8 none ∧ someVoxelExcluded D8 none ∧
      indicesValid D8 none = [] ∧
      getCarpetRun D8 none true = .ok [] := by
  have hsq : ¬ squeezeCrash D8 none := fun h => Bool.false_ne_true h.1
  exact ⟨hsq, someVoxelExcluded_D8, indicesValid_D8_nil none,
    C8_get_carpet_empty_gives_ok D8 none true hsq someVoxelExcluded_D8
      (indicesValid_D8_nil none)⟩

/-- Counterexample to claim C8 as stated: on the input `D8` whose mask
excludes every voxel (no threshold, so the run completes), `get_carpet`
does not fail with EmptyResult; it produces (ok) an empty carpet. -/
theorem C8_counterexample :
    indicesValid D8 none = [] ∧
      getCarpetRun D8 none true = Except.ok [] ∧
      getCarpetRun D8 none true ≠ Except.error PcarpetError.emptyResult := by
  have hsq : ¬ squeezeCrash D8 none := fun h => Bool.false_ne_true h.1
  have hok : getCarpetRun D8 none true = Except.ok [] := by
    unfold getCarpetRun
    rw [if_neg hsq, if_pos someVoxelExcluded_D8,
      getCarpet_nil_of_no_indices D8 none true (indicesValid_D8_nil none)]
  refine ⟨indicesValid_D8_nil none, hok, ?_⟩
  intro he
  rw [hok] at he
  cases he

/-- Claim C5: with sign flipping enabled, component `i < ncomp` and its
correlation column are negated exactly when the median of its original
correlations with the carpet rows is negative, are left unchanged
otherwise, and after sign normalization the median correlation of every
one of the first `ncomp` in-memory components with the carpet is
nonnegative. -/
theorem C5_sign_flip_iff_negative_median (V Tt ncomp : ℕ)
    (carpet comps scores : ℕ → ℕ → ℝ) (explVar : ℕ → ℝ)
    (savePcaScores : Bool) (i : ℕ) (hi : i < ncomp) :
    (pcMedian V Tt carpet comps i < 0 →
        (∀ t, (fit_pca_and_correlate V Tt carpet comps explVar scores ncomp
            savePcaScores true).memPCs t i = -(comps i t)) ∧
        (∀ v, (fit_pca_and_correlate V Tt carpet comps explVar scores ncomp
            savePcaScores true).memR v i = -(pearsonr_2d Tt carpet comps v i))) ∧
      (0 ≤ pcMedian V Tt carpet comps i →
        (∀ t, (fit_pca_and_correlate V Tt carpet comps explVar scores ncomp
            savePcaScores true).memPCs t i = comps i t) ∧
        (∀ v, (fit_pca_and_correlate V Tt carpet comps explVar scores ncomp
            savePcaScores true).memR v i = pearsonr_2d Tt carpet comps v i)) ∧
      0 ≤ npMedian ((List.range V).map (fun v =>
        (fit_pca_and_correlate V Tt carpet comps explVar scores ncomp
          savePcaScores true).memR v i)) := by
  refine ⟨?_, ?_, ?_⟩
  · intro hmed
    constructor
    · intro t
      exact if_pos (show (true = true) ∧ i < ncomp ∧
        pcMedian V Tt carpet comps i < 0 from ⟨rfl, hi, hmed⟩)
    · intro v
      exact if_pos (show (true = true) ∧ i < ncomp ∧
        pcMedian V Tt carpet comps i < 0 from ⟨rfl, hi, hmed⟩)
  · intro hmed
    constructor
    · intro t
      exact if_neg (fun hc => absurd hc.2.2 (not_lt.mpr hmed))
    · intro v
      exact if_neg (fun hc => absurd hc.2.2 (not_lt.mpr hmed))
  · by_cases hmed : pcMedian V Tt carpet comps i < 0
    · have hfun : (fun v => (fit_pca_and_correlate V Tt carpet comps explVar
          scores ncomp savePcaScores true).memR v i) =
          fun v => -(pearsonr_2d Tt carpet comps v i) :=
        funext fun v => if_pos (show (true = true) ∧ i < ncomp ∧
          pcMedian V Tt carpet comps i < 0 from ⟨rfl, hi, hmed⟩)
      rw [hfun]
      have hmm : (List.range V).map (fun v => -(pearsonr_2d Tt carpet comps v i)) =
          ((List.range V).map (fun v => pearsonr_2d Tt carpet comps v i)).map
            (fun x => -x) := by
        rw [List.map_map]
        rfl
      rw [hmm, npMedian_map_neg]
      exact neg_nonneg.mpr (le_of_lt hmed)
    · have hfun : (fun v => (fit_pca_and_correlate V Tt carpet comps explVar
          scores ncomp savePcaScores true).memR v i) =
          fun v => pearsonr_2d Tt carpet comps v i :=
        funext fun v => if_neg (fun hc => hmed hc.2.2)
      rw [hfun]
      exact not_lt.mp hmed

/-- Concrete instantiation of `C5_sign_flip_iff_negative_median` at
`V = Tt = ncomp = 1`, `i = 0`, with zero carpet and components. -/
theorem C5_sign_flip_iff_negative_median_witness :
    0 < 1 ∧
      ((pcMedian 1 1 (fun _ _ => 0) (fun _ _ => 0) 0 < 0 →
          (∀ t, (fit_pca_and_correlate 1 1 (fun _ _ => 0) (fun _ _ => 0)
              (fun _ => 0) (fun _ _ => 0) 1 false true).memPCs t 0 =
            -((fun _ _ => (0:ℝ)) 0 t)) ∧
          (∀ v, (fit_pca_and_correlate 1 1 (fun _ _ => 0) (fun _ _ => 0)
              (fun _ => 0) (fun _ _ => 0) 1 false true).memR v 0 =
            -(pearsonr_2d 1 (fun _ _ => 0) (fun _ _ => 0) v 0))) ∧
        (0 ≤ pcMedian 1 1 (fun _ _ => 0) (fun _ _ => 0) 0 →
          (∀ t, (fit_pca_and_correlate 1 1 (fun _ _ => 0) (fun _ _ => 0)
              (fun _ => 0) (fun _ _ => 0) 1 false true).memPCs t 0 =
            (fun _ _ => (0:ℝ)) 0 t) ∧
          (∀ v, (fit_pca_and_correlate 1 1 (fun _ _ => 0) (fun _ _ => 0)
              (fun _ => 0) (fun _ _ => 0) 1 false true).memR v 0 =
            pearsonr_2d 1 (fun _ _ => 0) (fun _ _ => 0) v 0)) ∧
        0 ≤ npMedian ((List.range 1).map (fun v =>
          (fit_pca_and_correlate 1 1 (fun _ _ => 0) (fun _ _ => 0)
            (fun _ => 0) (fun _ _ => 0) 1 false true).memR v 0))) := by
  exact ⟨by decide,
    C5_sign_flip_iff_negative_median 1 1 1 (fun _ _ => 0) (fun _ _ => 0)
      (fun _ _ => 0) (fun _ => 0) false 0 (by decide)⟩

/-- Claim C6: every persisted artifact of `fit_pca_and_correlate` — the
full component set, the full explained-variance vector, the optional
projection scores, the first-`ncomp` component table and the
correlation/variance report — is written with the original decomposition
sign, identically whether or not sign flipping is enabled; the held
carpet and stored explained variance are also unchanged, and the flip
modifies only the in-memory component table and correlation matrix, by
negating exactly the columns with negative report median. -/
theorem C6_saved_artifacts_keep_original_sign (V Tt ncomp : ℕ)
    (carpet comps scores : ℕ → ℕ → ℝ) (explVar : ℕ → ℝ)
    (savePcaScores : Bool) :
    (∀ flip : Bool,
      (fit_pca_and_correlate V Tt carpet comps explVar scores ncomp
          savePcaScores flip).savedCompsAll = comps ∧
      (fit_pca_and_correlate V Tt carpet comps explVar scores ncomp
          savePcaScores flip).savedExplVarAll = explVar ∧
      (fit_pca_and_correlate V Tt carpet comps explVar scores ncomp
          savePcaScores flip).savedScores =
        (if savePcaScores then some scores else none) ∧
      (fit_pca_and_correlate V Tt carpet comps explVar scores ncomp
          savePcaScores flip).savedPCsTable = (fun t i => comps i t) ∧
      (fit_pca_and_correlate V Tt carpet comps explVar scores ncomp
          savePcaScores flip).savedReportExplVar = explVar ∧
      (fit_pca_and_correlate V Tt carpet comps explVar scores ncomp
          savePcaScores flip).savedReportMedian = pcMedian V Tt carpet comps ∧
      (fit_pca_and_correlate V Tt carpet comps explVar scores ncomp
          savePcaScores flip).memCarpet = carpet ∧
      (fit_pca_and_correlate V Tt carpet comps explVar scores ncomp
          savePcaScores flip).memExplVar = explVar) ∧
    (fit_pca_and_correlate V Tt carpet comps explVar scores ncomp
        savePcaScores true).memPCs = (fun t i =>
      if i < ncomp ∧ pcMedian V Tt carpet comps i < 0
      then -((fit_pca_and_correlate V Tt carpet comps explVar scores ncomp
          savePcaScores false).memPCs t i)
      else (fit_pca_and_correlate V Tt carpet comps explVar scores ncomp
          savePcaScores false).memPCs t i) ∧
    (fit_pca_and_correlate V Tt carpet comps explVar scores ncomp
        savePcaScores true).memR = (fun v i =>
      if i < ncomp ∧ pcMedian V Tt carpet comps i < 0
      then -((fit_pca_and_correlate V Tt carpet comps explVar scores ncomp
          savePcaScores false).memR v i)
      else (fit_pca_and_correlate V Tt carpet comps explVar scores ncomp
          savePcaScores false).memR v i) := by
  refine ⟨fun flip => ⟨rfl, rfl, rfl, rfl, rfl, rfl, rfl, rfl⟩, ?_, ?_⟩
  · funext t i
    have h0 : (fit_pca_and_correlate V Tt carpet comps explVar scores ncomp
        savePcaScores false).memPCs t i = comps i t := by
      show (if (false = true) ∧ i < ncomp ∧ pcMedian V Tt carpet comps i < 0
        then -(comps i t) else comps i t) = comps i t
      exact if_neg (fun hc => Bool.false_ne_true hc.1)
    show (if (true = true) ∧ i < ncomp ∧ pcMedian V Tt carpet comps i < 0
      then -(comps i t) else comps i t) = _
    rw [h0]
    by_cases hc : i < ncomp ∧ pcMedian V Tt carpet comps i < 0
    · rw [if_pos (⟨rfl, hc.1, hc.2⟩ :
        (true = true) ∧ i < ncomp ∧ pcMedian V Tt carpet comps i < 0),
        if_pos hc]
    · rw [if_neg (fun h => hc ⟨h.2.1, h.2.2⟩), if_neg hc]
  · funext v i
    have h0 : (fit_pca_and_correlate V Tt carpet comps explVar scores ncomp
        savePcaScores false).memR v i = pearsonr_2d Tt carpet comps v i := by
      show (if (false = true) ∧ i < ncomp ∧ pcMedian V Tt carpet comps i < 0
        then -(pearsonr_2d Tt carpet comps v i)
        else pearsonr_2d Tt carpet comps v i) = pearsonr_2d Tt carpet comps v i
      exact if_neg (fun hc => Bool.false_ne_true hc.1)
    show (if (true = true) ∧ i < ncomp ∧ pcMedian V Tt carpet comps i < 0
      then -(pearsonr_2d Tt carpet comps v i)
      else pearsonr_2d Tt carpet comps v i) = _
    rw [h0]
    by_cases hc : i < ncomp ∧ pcMedian V Tt carpet comps i < 0
    · rw [if_pos (⟨rfl, hc.1, hc.2⟩ :
        (true = true) ∧ i < ncomp ∧ pcMedian V Tt carpet comps i < 0),
        if_pos hc]
    · rw [if_neg (fun h => hc ⟨h.2.1, h.2.2⟩), if_neg hc]

/-- Claim C7, amended: `fit_pca_and_correlate` performs no `ncomp`
validation and never raises an InvalidArgument-style error.  On a
nonempty `V × T` carpet (so the PCA fit itself succeeds and yields
`min(V, T)` components), for an integer `ncomp` the call completes
normally exactly when `0 ≤ ncomp ≤ min(V, T)` or `ncomp ≤ -min(V, T)`;
otherwise (in particular whenever `ncomp > min(V, T)`, even positive
`ncomp ≤ T` when `V < T`) it fails only with the incidental
table-construction shape `ValueError`.  A non-positive `ncomp` such as 0
is accepted without any error. -/
theorem C7_ncomp_no_validation (V Tt : ℕ) (ncomp : ℤ)
    (hV : 0 < V) (hT : 0 < Tt) :
    (fitNcompOutcome V Tt ncomp = .ok () ↔
      ((0 ≤ ncomp ∧ ncomp ≤ ((min V Tt : ℕ) : ℤ)) ∨
        (ncomp < 0 ∧ ((min V Tt : ℕ) : ℤ) + ncomp ≤ 0))) ∧
    fitNcompOutcome V Tt ncomp ≠ .error .invalidArgument := by
  have harith : pySliceLen (min V Tt) ncomp = ncomp.toNat ↔
      ((0 ≤ ncomp ∧ ncomp ≤ ((min V Tt : ℕ) : ℤ)) ∨
        (ncomp < 0 ∧ ((min V Tt : ℕ) : ℤ) + ncomp ≤ 0)) := by
    unfold pySliceLen
    split_ifs with h
    · omega
    · omega
  constructor
  · rw [fitNcompOutcome]
    split_ifs with h
    · exact ⟨fun _ => harith.mp h, fun _ => rfl⟩
    · constructor
      · intro he
        cases he
      · intro hr
        exact absurd (harith.mpr hr) h
  · rw [fitNcompOutcome]
    split_ifs with h
    · intro he
      cases he
    · intro he
      cases he

/-- Concrete instantiation of `C7_ncomp_no_validation` at a `4 × 5`
carpet with `ncomp = 3` (within the `min(V, T) = 4` component count). -/
theorem C7_ncomp_no_validation_witness :
    0 < 4 ∧ 0 < 5 ∧
      ((fitNcompOutcome 4 5 3 = .ok () ↔
        ((0 ≤ (3:ℤ) ∧ (3:ℤ) ≤ ((min 4 5 : ℕ) : ℤ)) ∨
          ((3:ℤ) < 0 ∧ ((min 4 5 : ℕ) : ℤ) + 3 ≤ 0))) ∧
      fitNcompOutcome 4 5 3 ≠ .error .invalidArgument) := by
  exact ⟨by decide, by decide,
    C7_ncomp_no_validation 4 5 3 (by decide) (by decide)⟩

/-- Counterexample to claim C7 as stated: `ncomp = 0` is not a positive
integer, yet on a `4 × 5` carpet the `ncomp`-dependent behaviour of
`fit_pca_and_correlate` completes without any error instead of failing
with InvalidArgument. -/
theorem C7_counterexample :
    fitNcompOutcome 4 5 0 = Except.ok () ∧ (0 : ℤ) ≤ 0 := by
  exact ⟨rfl, le_refl 0⟩

end Pcarpet
